import Mathlib

/-!
Verification of the Looply LIA rule-based responder
(`src/lia/lia_clean_final.py`, class `LooplyLIA`).

The Python code is embedded shallowly at the character-list level:
strings are `String` / `List Char`, Python's `in` substring test is
`infixOf`, `str.lower().strip()` is `normalize`, `str.replace` is
`pyReplaceL` (fuel-based, faithful for non-empty patterns),
`str.split(sep)[-1]` is `lastSplitSeg`, `str.format` on the caption
templates is `pyFormat`, and `str.title` is `pyTitle`.  All random
choices (`random.choice`, `random.sample`) and the wall clock
(`time.strftime`) are supplied by an explicit `Oracle` record, so every
operation is a pure function of its inputs and the oracle.
-/

namespace Looply

/-- The literal opening curly brace character. -/
def obrace : Char := '\x7b'

/-- Python's substring test `pat in s`, on character lists. -/
def infixOf (pat : List Char) : List Char → Bool
  | [] => pat.isEmpty
  | c :: cs => pat.isPrefixOf (c :: cs) || infixOf pat cs

/-- `w in u` for a string keyword `w` against a character list `u`. -/
def containsW (u : List Char) (w : String) : Bool :=
  infixOf w.data u

/-- Python's `any(word in u for word in ws)`. -/
def containsAny (u : List Char) (ws : List String) : Bool :=
  ws.any (fun w => containsW u w)

/-- Substring test on whole strings (`sub in s`). -/
def containsSub (s sub : String) : Bool :=
  infixOf sub.data s.data

/-- Python's `str.lower()` (ASCII case folding, which covers every keyword
the dispatcher tests). -/
def pyLower (l : List Char) : List Char :=
  l.map Char.toLower

/-- Python's `str.strip()`: whitespace removed from both ends. -/
def pyStrip (l : List Char) : List Char :=
  ((l.dropWhile Char.isWhitespace).reverse.dropWhile Char.isWhitespace).reverse

/-- The normalisation `user_input.lower().strip()` performed at the top of
`LooplyLIA.chat`. -/
def normalize (s : String) : List Char :=
  pyStrip (pyLower s.data)

/-- Fuel-driven worker for Python's `str.replace`: replaces every
non-overlapping occurrence of `pat`, scanning left to right.  With
`fuel ≥ length of the list` and a non-empty pattern it is exact. -/
def replaceAllAux (pat rep : List Char) : Nat → List Char → List Char
  | _, [] => []
  | 0, l => l
  | fuel + 1, c :: cs =>
    if pat.isPrefixOf (c :: cs) then
      rep ++ replaceAllAux pat rep fuel (List.drop pat.length (c :: cs))
    else
      c :: replaceAllAux pat rep fuel cs

/-- Python's `l.replace(pat, rep)` on character lists (non-empty `pat`). -/
def pyReplaceL (pat rep l : List Char) : List Char :=
  replaceAllAux pat rep l.length l

/-- Python's `s.replace(pat, rep)` on strings (non-empty `pat`). -/
def pyReplace (s pat rep : String) : String :=
  String.mk (pyReplaceL pat.data rep.data s.data)

/-- Fuel-driven worker for Python's `str.split(sep)` (non-empty `sep`). -/
def pySplitAux (pat : List Char) : Nat → List Char → List (List Char)
  | _, [] => [[]]
  | 0, l => [l]
  | fuel + 1, c :: cs =>
    if pat.isPrefixOf (c :: cs) then
      [] :: pySplitAux pat fuel (List.drop pat.length (c :: cs))
    else
      match pySplitAux pat fuel cs with
      | [] => [[c]]
      | seg :: rest => (c :: seg) :: rest

/-- Python's `l.split(pat)[-1]`: the text after the last occurrence of
`pat` (the whole list when `pat` does not occur). -/
def lastSplitSeg (pat : List Char) (l : List Char) : List Char :=
  (pySplitAux pat l.length l).getLastD []

/-- Worker for Python's `str.title()`: the flag records whether the
previous character was alphabetic. -/
def pyTitleAux : Bool → List Char → List Char
  | _, [] => []
  | prevAlpha, c :: cs =>
    (if c.isAlpha then (if prevAlpha then c.toLower else c.toUpper) else c) ::
      pyTitleAux c.isAlpha cs

/-- Python's `str.title()` (ASCII, which covers the strategy keys). -/
def pyTitle (l : List Char) : List Char :=
  pyTitleAux false l

/-- Worker splitting a character list into maximal whitespace-free tokens;
`acc` holds the (reversed) token being read. -/
def tokensAux (acc : List Char) : List Char → List (List Char)
  | [] => if acc.isEmpty then [] else [acc.reverse]
  | c :: cs =>
    if c.isWhitespace then
      (if acc.isEmpty then tokensAux [] cs else acc.reverse :: tokensAux [] cs)
    else
      tokensAux (c :: acc) cs

/-- The whitespace-separated tokens of a character list (Python's
`str.split()` with no argument). -/
def pyTokens (l : List Char) : List (List Char) :=
  tokensAux [] l

/-- The number of whitespace-separated tokens of `s` that start with the
character given (used with the hash sign to count hashtag tokens). -/
def tokenCountStarting (c : Char) (s : String) : Nat :=
  (pyTokens s.data).countP (fun t => decide (t.head? = some c))

/-- The field name `topic` followed by a closing brace, as it appears in a
caption template after its opening brace. -/
def topicKey : List Char := ['t', 'o', 'p', 'i', 'c', '\x7d']

/-- The field name `hashtags` followed by a closing brace. -/
def tagsKey : List Char := ['h', 'a', 's', 'h', 't', 'a', 'g', 's', '\x7d']

/-- Worker for Python's `template.format(topic=..., hashtags=...)` on the
caption templates: scans the template, substituting the two fields; the
substituted text is not rescanned, exactly as `str.format` behaves. -/
def fmtAux (topic tags : List Char) : Nat → List Char → List Char
  | _, [] => []
  | 0, l => l
  | fuel + 1, c :: cs =>
    if c == obrace && topicKey.isPrefixOf cs then
      topic ++ fmtAux topic tags fuel (List.drop 6 cs)
    else if c == obrace && tagsKey.isPrefixOf cs then
      tags ++ fmtAux topic tags fuel (List.drop 9 cs)
    else
      c :: fmtAux topic tags fuel cs

/-- `template.format(topic=topic, hashtags=tags)` for the caption
templates (whose only fields are `topic` and `hashtags`). -/
def pyFormat (template topic tags : String) : String :=
  String.mk (fmtAux topic.data tags.data template.data.length template.data)

/-! ### Static reference data (`LooplyLIA.__init__`) -/

/-- `self.looply_hashtags`: category name to its fixed hashtag sequence. -/
def looply_hashtags : String → List String
  | "general" => ["#LooplyLife", "#Authentic", "#Community", "#Share", "#Connect", "#Vibes", "#RealTalk"]
  | "fitness" => ["#FitnessJourney", "#HealthyLifestyle", "#WorkoutMotivation", "#FitFam", "#Wellness", "#LooplyFit"]
  | "food" => ["#Foodie", "#Delicious", "#Cooking", "#Recipe", "#FoodLover", "#LooplyEats"]
  | "travel" => ["#Travel", "#Adventure", "#Wanderlust", "#Explore", "#Journey", "#LooplyTravel"]
  | "tech" => ["#Technology", "#Innovation", "#TechLife", "#Digital", "#Future", "#LooplyTech"]
  | "art" => ["#Art", "#Creative", "#Artist", "#Inspiration", "#Design", "#LooplyArt"]
  | "lifestyle" => ["#Lifestyle", "#Mindful", "#Balance", "#Growth", "#Positive", "#LooplyDaily"]
  | "business" => ["#Entrepreneur", "#Business", "#Success", "#Hustle", "#Goals", "#LooplyBiz"]
  | "entertainment" => ["#Fun", "#Entertainment", "#Music", "#Movies", "#Gaming", "#LooplyFun"]
  | _ => []

/-- `self.caption_templates`. -/
def caption_templates : List String :=
  ["✨ {topic} vibes hitting different today... What's your take? 💭 {hashtags}",
   "Just discovered something amazing about {topic}! 🔥 Who else can relate? {hashtags}",
   "Today's mood: {topic} energy! 💫 Drop your thoughts below 👇 {hashtags}",
   "Let's talk about {topic}... Your perspective matters! 🌟 {hashtags}",
   "Feeling inspired by {topic} lately 🚀 Anyone else on this wavelength? {hashtags}",
   "Real talk about {topic}: it's been a game-changer 💯 {hashtags}",
   "Can we normalize talking about {topic}? It's so important! 🙌 {hashtags}",
   "Plot twist: {topic} just became my new obsession 😍 {hashtags}",
   "Unpopular opinion: {topic} doesn't get enough credit 🤔 {hashtags}",
   "Behind the scenes of my {topic} journey... it's been wild! 📸 {hashtags}"]

/-- `self.engagement_strategies`, in the dictionary's insertion order. -/
def engagement_strategies : List (String × String) :=
  [("post_timing", "Best posting times on Looply: 7-9 AM, 12-1 PM, and 7-9 PM when your community is most active!"),
   ("hashtag_strategy", "Use 5-8 hashtags: mix 2-3 popular ones (#LooplyLife) with 3-5 niche ones specific to your content."),
   ("content_mix", "Follow the 80/20 rule: 80% valuable/entertaining content, 20% promotional. Keep it authentic!"),
   ("community_building", "Respond to comments within the first hour. Ask questions in your captions to spark conversations."),
   ("consistency", "Post consistently but prioritize quality over quantity. 3-5 high-quality posts per week beats daily rushed content."),
   ("storytelling", "Every post should tell a story. Start with a hook, share the journey, and end with a call-to-action."),
   ("visual_appeal", "Good lighting and composition matter more than expensive equipment. Natural light is your best friend!"),
   ("authenticity", "Share both wins and struggles. Your community connects with real, relatable content more than perfection.")]

/-- The fixed greeting strings of the greeting branch of `chat`. -/
def greetings : List String :=
  ["Hey there! 👋 I'm LIA, your Looply assistant. Ready to create something amazing?",
   "Hello! ✨ I'm here to help you level up your Looply game. What can we work on?",
   "Hi! 🚀 I'm LIA, and I'm excited to help you create engaging content for Looply!"]

/-- The fixed joke strings of the joke branch of `chat`. -/
def social_jokes : List String :=
  ["Why don't social media managers ever get lost? They always know how to find their way to trending! 😄",
   "What do you call a hashtag that works out? #FitTag! 💪",
   "Why did the influencer bring a ladder to the photoshoot? To reach new heights! 📸",
   "What's a content creator's favorite type of music? Algo-rhythms! 🎵"]

/-- The fixed fallback strings of the default branch of `chat`. -/
def defaults : List String :=
  ["🤔 I'm still learning about that! Try asking for captions, hashtags, content ideas, or engagement tips.",
   "💡 Not sure about that one! I'm great with content creation, hashtags, and Looply growth strategies.",
   "✨ Let me help you with something I know well - try asking for a caption or content ideas!"]

/-! ### Mutable state and the randomness/clock oracle -/

/-- The per-instance state of `LooplyLIA`: `self.name`, `self.memory`
(a key-value mapping), `self.intelligence_level` and `self.session_data`. -/
structure LIA where
  name : String
  memory : String → Option String
  intelligence_level : Nat
  session_data : List (String × String)

/-- A freshly constructed `LooplyLIA()`: empty memory, level 5. -/
def initLIA : LIA :=
  { name := "LIA", memory := fun _ => none, intelligence_level := 5, session_data := [] }

/-- One call's worth of the program's randomness and clock:
`random.choice` from the greeting / joke / default / template lists is an
index, `time.strftime` is a string, and `random.sample` from the content
ideas and trends is the sampled sequence itself. -/
structure Oracle where
  g : Fin greetings.length
  j : Fin social_jokes.length
  d : Fin defaults.length
  tmpl : Fin caption_templates.length
  timeStr : String
  ideas : List String
  trends : List String

/-! ### Operations of `LooplyLIA` -/

/-- `LooplyLIA.learn`: stores `value` under `key` (overwriting) and
returns the confirmation string. -/
def learn (st : LIA) (key value : String) : LIA × String :=
  ({ st with memory := fun k => if k = key then some value else st.memory k },
   "✅ Learned " ++ key ++ ". I'll remember this for our future conversations!")

/-- `LooplyLIA.recall`: `self.memory.get(key, default)`. -/
def recall' (st : LIA) (key : String) : String :=
  (st.memory key).getD "🤔 I don't remember that yet. Want to teach me?"

/-- `LooplyLIA.get_hashtags_for_topic`: lowercases the topic text, picks
the first matching category, returns its hashtag list. -/
def get_hashtags_for_topic (topicText : String) : List String :=
  let t := pyLower topicText.data
  let category :=
    if containsAny t ["fitness", "workout", "gym", "health"] then "fitness"
    else if containsAny t ["food", "recipe", "cooking", "eat"] then "food"
    else if containsAny t ["travel", "vacation", "trip"] then "travel"
    else if containsAny t ["tech", "code", "programming", "ai"] then "tech"
    else if containsAny t ["art", "design", "creative"] then "art"
    else if containsAny t ["business", "entrepreneur", "startup"] then "business"
    else if containsAny t ["music", "movie", "game", "fun"] then "entertainment"
    else if containsAny t ["lifestyle", "mindful", "balance"] then "lifestyle"
    else "general"
  looply_hashtags category

/-- `LooplyLIA.generate_caption`: the chosen template, adjusted for the
style, formatted with the topic and the first five topic hashtags. -/
def generate_caption (tmplChoice : Fin caption_templates.length)
    (topic : String) (style : String) : String :=
  let template := caption_templates.get tmplChoice
  let hashtags := get_hashtags_for_topic topic
  let template :=
    if style = "professional" then
      pyReplace (pyReplace template "vibes hitting different" "insights resonating strongly")
        "Real talk" "Key insight"
    else if style = "creative" then "🎨 " ++ template
    else template
  pyFormat template topic (String.intercalate " " (hashtags.take 5))

/-- `LooplyLIA.get_content_ideas`: the five sampled ideas, numbered, plus
the niche-specific sentence. -/
def get_content_ideas (o : Oracle) (niche : String) : String :=
  String.intercalate "\n" (List.mapIdx (fun i idea => toString (i + 1) ++ ". " ++ idea) o.ideas) ++
    "\n\n🎯 For " ++ niche ++ " creators: Consider sharing industry insights, behind-the-scenes content, or community challenges!"

/-- `LooplyLIA.get_engagement_tips`: a single tip when the focus is a
known strategy, else the full concatenated table. -/
def get_engagement_tips (focus : String) : String :=
  match engagement_strategies.lookup focus with
  | some tip => "💡 " ++ tip
  | none =>
    "🚀 **Looply Engagement Mastery:**\n\n" ++
      String.join (engagement_strategies.map
        (fun p => "**" ++ String.mk (pyTitle (pyReplace p.1 "_" " ").data) ++ ":** " ++ p.2 ++ "\n\n")) ++
      "🌟 Remember: Authentic engagement beats vanity metrics every time!"

/-- `LooplyLIA.analyze_trends`: header plus the three sampled trends. -/
def analyze_trends (o : Oracle) : String :=
  "🎭 **Current Looply Trends:**\n\n" ++ String.intercalate "\n" o.trends

/-! ### The keyword predicates of `LooplyLIA.chat`, in source order -/

/-- Predicate 1: `any(word in u for word in ['hello', 'hi', 'hey'])`. -/
def wantsGreeting (u : List Char) : Bool := containsAny u ["hello", "hi", "hey"]

/-- Predicate 2: `'time' in u`. -/
def wantsTime (u : List Char) : Bool := containsW u "time"

/-- Predicate 3: `'joke' in u`. -/
def wantsJoke (u : List Char) : Bool := containsW u "joke"

/-- Predicate 4: caption request keywords. -/
def wantsCaption (u : List Char) : Bool := containsAny u ["caption", "post idea", "create post"]

/-- Predicate 5: `'hashtag' in u`. -/
def wantsHashtag (u : List Char) : Bool := containsW u "hashtag"

/-- Predicate 6: content-idea request keywords. -/
def wantsContentIdea (u : List Char) : Bool := containsAny u ["content idea", "post suggestion", "what to post"]

/-- Predicate 7: engagement request keywords. -/
def wantsEngagement (u : List Char) : Bool := containsAny u ["engagement", "more likes", "more followers", "grow"]

/-- Predicate 8: trend request keywords. -/
def wantsTrend (u : List Char) : Bool := containsAny u ["trend", "trending", "popular", "viral"]

/-- Predicate 9: analytics request keywords. -/
def wantsAnalytics (u : List Char) : Bool := containsAny u ["performance", "analytics", "metrics"]

/-- Predicate 10: `'learn' in u or 'remember' in u`. -/
def wantsLearn (u : List Char) : Bool := containsW u "learn" || containsW u "remember"

/-- Predicate 11: `'upgrade' in u`. -/
def wantsUpgrade (u : List Char) : Bool := containsW u "upgrade"

/-- Predicate 12: help request keywords. -/
def wantsHelp (u : List Char) : Bool := containsAny u ["help", "commands", "what can you do"]

/-! ### The branch responses of `LooplyLIA.chat` -/

/-- The time-branch response. -/
def timeResp (o : Oracle) : String :=
  "⏰ Current time is " ++ o.timeStr ++ " - Perfect time to create some content!"

/-- The caption branch's topic extraction: text after `about`, else after
`for`, else the fixed default. -/
def captionTopic (u : List Char) : String :=
  if containsW u "about" then String.mk (pyStrip (lastSplitSeg "about".data u))
  else if containsW u "for" then String.mk (pyStrip (lastSplitSeg "for".data u))
  else "your experience"

/-- The caption-branch response: `generate_caption(topic)` with the
default casual style. -/
def captionResp (o : Oracle) (u : List Char) : String :=
  generate_caption o.tmpl (captionTopic u) "casual"

/-- The hashtag-branch response: the utterance with `hashtag` removed and
stripped as topic (default `general content`), plus the full list. -/
def hashtagResp (u : List Char) : String :=
  let topic := String.mk (pyStrip (pyReplaceL "hashtag".data [] u))
  let topic := if topic = "" then "general content" else topic
  "📝 **Hashtag suggestions for " ++ topic ++ ":**\n\n" ++
    String.intercalate " " (get_hashtags_for_topic topic) ++
    "\n\n💡 Tip: Mix popular and niche hashtags for best reach!"

/-- The content-ideas-branch response: niche is the text after `for`,
else `general`. -/
def contentIdeasResp (o : Oracle) (u : List Char) : String :=
  let niche :=
    if containsW u "for" then String.mk (pyStrip (lastSplitSeg "for".data u))
    else "general"
  "💡 **Content Ideas for You:**\n\n" ++ get_content_ideas o niche

/-- The fixed analytics-branch response. -/
def performanceTips : String :=
  "📊 **Looply Performance Tips:**\n\n🎯 **Key Metrics to Track:**\n• Engagement rate (likes + comments ÷ followers)\n• Reach and impressions\n• Profile visits and follows\n• Save rate (shows content value)\n\n📈 **Optimization Strategies:**\n• Post when your audience is most active\n• Use analytics to identify top-performing content\n• A/B test different caption styles\n• Monitor hashtag performance\n\n🚀 **Growth Hacks:**\n• Collaborate with other creators\n• Engage actively in your community\n• Share user-generated content\n• Host live sessions or Q&As"

/-- The fixed instructional string of the learn/remember branch. -/
def learnInstr : String :=
  "🧠 I can learn! Try: 'learn my niche: fitness' or 'remember posting time: 7 PM'"

/-- The upgrade-branch response embedding the new intelligence level. -/
def upgradeMsg (level : Nat) : String :=
  "🚀 Intelligence upgraded to level " ++ toString level ++ "! I'm getting smarter about Looply content creation!"

/-- The fixed help-branch response. -/
def helpText : String :=
  "🌟 **I'm LIA, your Looply assistant! Here's what I can help with:**\n\n📝 **Content Creation:**\n• \"Create a caption about travel\"\n• \"Generate hashtags for fitness\"\n• \"Give me content ideas\"\n\n📊 **Growth & Strategy:**\n• \"Engagement tips\"\n• \"Current trends\"\n• \"Performance advice\"\n\n🧠 **Learning:**\n• \"Learn my niche: photography\"\n• \"Remember my posting time: 8 PM\"\n\n💡 **Quick Commands:**\n• Ask for jokes, time, or just say hello!\n• Be specific about your niche for better suggestions"

/-- The dispatch chain of `LooplyLIA.chat` on the already-normalised
utterance `u`: the source's if/elif chain, branch for branch. -/
def chatCore (st : LIA) (o : Oracle) (u : List Char) : LIA × String :=
  if wantsGreeting u then (st, greetings.get o.g)
  else if wantsTime u then (st, timeResp o)
  else if wantsJoke u then (st, social_jokes.get o.j)
  else if wantsCaption u then (st, captionResp o u)
  else if wantsHashtag u then (st, hashtagResp u)
  else if wantsContentIdea u then (st, contentIdeasResp o u)
  else if wantsEngagement u then (st, get_engagement_tips "general")
  else if wantsTrend u then (st, analyze_trends o)
  else if wantsAnalytics u then (st, performanceTips)
  else if wantsLearn u then (st, learnInstr)
  else if wantsUpgrade u then
    ({ st with intelligence_level := st.intelligence_level + 1 },
     upgradeMsg (st.intelligence_level + 1))
  else if wantsHelp u then (st, helpText)
  else (st, defaults.get o.d)

/-- `LooplyLIA.chat`: normalise the utterance, then run the dispatch
chain.  The returned pair is the updated state and the response. -/
def chat (st : LIA) (o : Oracle) (userInput : String) : LIA × String :=
  chatCore st o (normalize userInput)

/-! ### Spec-side view of the dispatch: an ordered predicate list,
first match wins (spec section 4.1). -/

/-- The thirteen intents of the dispatch chain; `fallback` is the
thirteenth, catch-all branch. -/
inductive Branch where
  | greeting
  | time
  | joke
  | caption
  | hashtag
  | contentIdea
  | engagement
  | trend
  | analytics
  | learning
  | upgrade
  | help
  | fallback
deriving DecidableEq

/-- The branch the source's if/elif chain selects for the normalised
utterance `u`. -/
def dispatch (u : List Char) : Branch :=
  if wantsGreeting u then .greeting
  else if wantsTime u then .time
  else if wantsJoke u then .joke
  else if wantsCaption u then .caption
  else if wantsHashtag u then .hashtag
  else if wantsContentIdea u then .contentIdea
  else if wantsEngagement u then .engagement
  else if wantsTrend u then .trend
  else if wantsAnalytics u then .analytics
  else if wantsLearn u then .learning
  else if wantsUpgrade u then .upgrade
  else if wantsHelp u then .help
  else .fallback

/-- Modelled from the spec's words: the twelve keyword predicates paired
with their branches, in the specified order (the thirteenth entry of the
spec's table is the fallback, the default of `firstMatch`). -/
def specPredicates : List ((List Char → Bool) × Branch) :=
  [(wantsGreeting, .greeting), (wantsTime, .time), (wantsJoke, .joke),
   (wantsCaption, .caption), (wantsHashtag, .hashtag),
   (wantsContentIdea, .contentIdea), (wantsEngagement, .engagement),
   (wantsTrend, .trend), (wantsAnalytics, .analytics),
   (wantsLearn, .learning), (wantsUpgrade, .upgrade), (wantsHelp, .help)]

/-- Modelled from the spec's words: evaluate an ordered predicate list,
returning the branch of the first predicate that matches, else the
fallback. -/
def firstMatch : List ((List Char → Bool) × Branch) → List Char → Branch
  | [], _ => .fallback
  | (p, b) :: rest, u => if p u then b else firstMatch rest u

/-- Modelled from the spec's words: the state change and response each
branch produces, as a function of the selected branch. -/
def branchRespond (st : LIA) (o : Oracle) (u : List Char) : Branch → LIA × String
  | .greeting => (st, greetings.get o.g)
  | .time => (st, timeResp o)
  | .joke => (st, social_jokes.get o.j)
  | .caption => (st, captionResp o u)
  | .hashtag => (st, hashtagResp u)
  | .contentIdea => (st, contentIdeasResp o u)
  | .engagement => (st, get_engagement_tips "general")
  | .trend => (st, analyze_trends o)
  | .analytics => (st, performanceTips)
  | .learning => (st, learnInstr)
  | .upgrade =>
    ({ st with intelligence_level := st.intelligence_level + 1 },
     upgradeMsg (st.intelligence_level + 1))
  | .help => (st, helpText)
  | .fallback => (st, defaults.get o.d)

/-- Modelled from the spec's words: the ordered keyword-set to category
table of `hashtagsForTopic`. -/
def specCategoryTable : List (List String × String) :=
  [(["fitness", "workout", "gym", "health"], "fitness"),
   (["food", "recipe", "cooking", "eat"], "food"),
   (["travel", "vacation", "trip"], "travel"),
   (["tech", "code", "programming", "ai"], "tech"),
   (["art", "design", "creative"], "art"),
   (["business", "entrepreneur", "startup"], "business"),
   (["music", "movie", "game", "fun"], "entertainment"),
   (["lifestyle", "mindful", "balance"], "lifestyle")]

/-- Modelled from the spec's words: first-match-wins category selection
over an ordered keyword table, defaulting to `general`. -/
def categoryFirstMatch : List (List String × String) → List Char → String
  | [], _ => "general"
  | (kws, cat) :: rest, t => if containsAny t kws then cat else categoryFirstMatch rest t

/-- A fixed oracle for concrete witness evaluations: first list entries,
a fixed clock string, empty samples. -/
def o0 : Oracle :=
  ⟨⟨0, by decide⟩, ⟨0, by decide⟩, ⟨0, by decide⟩, ⟨0, by decide⟩, "12:00:00", [], []⟩

/-- The longest brace-free prefix of a template's characters. -/
def splitA (t : List Char) : List Char :=
  t.takeWhile (fun c => !(c == obrace))

/-- The brace-free literal text between the end of the topic field and
the opening brace of the hashtags field. -/
def splitB (t : List Char) : List Char :=
  ((t.dropWhile (fun c => !(c == obrace))).drop 7).takeWhile (fun c => !(c == obrace))

/-- Decides that a template consists of a brace-free prefix, the topic
field, a brace-free middle and the hashtags field at the very end, and
contains no hash character (true of all ten caption templates in every
style). -/
def checkTemplate (t : List Char) : Bool :=
  decide (t = splitA t ++ (obrace :: (topicKey ++ (splitB t ++ (obrace :: tagsKey))))) &&
    decide (t.count '#' = 0)

/-- The caption template selected by `generate_caption` after its style
adjustment. -/
def styledTemplate (tmplChoice : Fin caption_templates.length) (style : String) : String :=
  let template := caption_templates.get tmplChoice
  if style = "professional" then
    pyReplace (pyReplace template "vibes hitting different" "insights resonating strongly")
      "Real talk" "Key insight"
  else if style = "creative" then "🎨 " ++ template
  else template

/-- The source's chain and the spec's ordered predicate list select the
same branch. -/
theorem dispatch_eq_firstMatch (u : List Char) :
    dispatch u = firstMatch specPredicates u := rfl

/-- The dispatch chain is the branch-respond function applied to the
selected branch. -/
theorem chatCore_eq_branchRespond (st : LIA) (o : Oracle) (u : List Char) :
    chatCore st o u = branchRespond st o u (dispatch u) := by
  unfold chatCore dispatch
  cases h1 : wantsGreeting u <;> simp only [h1, Bool.false_eq_true, if_true, if_false, branchRespond]
  cases h2 : wantsTime u <;> simp only [h2, Bool.false_eq_true, if_true, if_false, branchRespond]
  cases h3 : wantsJoke u <;> simp only [h3, Bool.false_eq_true, if_true, if_false, branchRespond]
  cases h4 : wantsCaption u <;> simp only [h4, Bool.false_eq_true, if_true, if_false, branchRespond]
  cases h5 : wantsHashtag u <;> simp only [h5, Bool.false_eq_true, if_true, if_false, branchRespond]
  cases h6 : wantsContentIdea u <;> simp only [h6, Bool.false_eq_true, if_true, if_false, branchRespond]
  cases h7 : wantsEngagement u <;> simp only [h7, Bool.false_eq_true, if_true, if_false, branchRespond]
  cases h8 : wantsTrend u <;> simp only [h8, Bool.false_eq_true, if_true, if_false, branchRespond]
  cases h9 : wantsAnalytics u <;> simp only [h9, Bool.false_eq_true, if_true, if_false, branchRespond]
  cases h10 : wantsLearn u <;> simp only [h10, Bool.false_eq_true, if_true, if_false, branchRespond]
  cases h11 : wantsUpgrade u <;> simp only [h11, Bool.false_eq_true, if_true, if_false, branchRespond]
  cases h12 : wantsHelp u <;> simp only [h12, Bool.false_eq_true, if_true, if_false, branchRespond]

/-- `firstMatch` returns the branch of index `k` whenever the predicate
at `k` matches and every earlier predicate fails. -/
theorem firstMatch_of_first (ps : List ((List Char → Bool) × Branch)) (u : List Char) :
    ∀ (k : Nat) (hk : k < ps.length), ((ps.get ⟨k, hk⟩).1 u = true) →
      (∀ j (hj : j < k), (ps.get ⟨j, Nat.lt_trans hj hk⟩).1 u = false) →
      firstMatch ps u = (ps.get ⟨k, hk⟩).2 := by
  induction ps with
  | nil => intro k hk; exact absurd hk (by simp)
  | cons p rest ih =>
    intro k hk hmatch hearlier
    cases k with
    | zero =>
      have hm : p.1 u = true := by simpa using hmatch
      simp [firstMatch, hm]
    | succ k' =>
      have h0 : p.1 u = false := by simpa using hearlier 0 (Nat.succ_pos k')
      have hk' : k' < rest.length := Nat.lt_of_succ_lt_succ hk
      have hm' : (rest.get ⟨k', hk'⟩).1 u = true := by simpa using hmatch
      have he' : ∀ j (hj : j < k'), (rest.get ⟨j, Nat.lt_trans hj hk'⟩).1 u = false := by
        intro j hj
        simpa using hearlier (j + 1) (Nat.succ_lt_succ hj)
      have := ih k' hk' hm' he'
      simpa [firstMatch, h0] using this

/-! ### Helper lemmas about substring search and stripping -/

/-- `infixOf` decides the `IsInfix` relation. -/
theorem infixOf_iff (pat l : List Char) : infixOf pat l = true ↔ pat <:+: l := by
  induction l with
  | nil => simp [infixOf, List.isEmpty_iff]
  | cons c cs ih => simp [infixOf, ih, List.infix_cons_iff]

/-- An infix whose first character fails `p` survives `dropWhile p`. -/
theorem infix_dropWhile_of_head {p : Char → Bool} {w0 l : List Char} {a : Char}
    (hpa : p a = false) (h : (a :: w0) <:+: l) : (a :: w0) <:+: l.dropWhile p := by
  induction l with
  | nil => simp at h
  | cons x xs ih =>
    cases hx : p x with
    | false => rwa [List.dropWhile_cons_of_neg (by simp [hx])]
    | true =>
      rw [List.dropWhile_cons_of_pos (by simp [hx])]
      apply ih
      rcases h with ⟨s, t, he⟩
      cases s with
      | nil =>
        exfalso
        have hxa : a = x := by simpa using congrArg List.head? he
        rw [hxa] at hpa
        rw [hpa] at hx
        exact Bool.noConfusion hx
      | cons y s' =>
        refine ⟨s', t, ?_⟩
        have := congrArg List.tail he
        simpa using this

/-- An infix whose first and last characters are not whitespace survives
Python's `strip`. -/
theorem infix_pyStrip {w l : List Char} {a b : Char}
    (ha : w.head? = some a) (hpa : a.isWhitespace = false)
    (hb : w.getLast? = some b) (hpb : b.isWhitespace = false)
    (h : w <:+: l) : w <:+: pyStrip l := by
  cases w with
  | nil => simp at ha
  | cons a0 w0 =>
    have hpa0 : a0.isWhitespace = false := by
      have haa : a0 = a := by simpa using ha
      rw [haa]; exact hpa
    have step1 : (a0 :: w0) <:+: l.dropWhile Char.isWhitespace :=
      infix_dropWhile_of_head hpa0 h
    have h2 := step1.reverse
    cases hr : (a0 :: w0).reverse with
    | nil => simp at hr
    | cons b0 r0 =>
      have hpb0 : b0.isWhitespace = false := by
        have hh : ((a0 :: w0).reverse).head? = some b0 := by rw [hr]; rfl
        rw [List.head?_reverse] at hh
        rw [hb] at hh
        have hbb : b = b0 := Option.some_inj.mp hh
        rw [← hbb]; exact hpb
      rw [hr] at h2
      have h3 := infix_dropWhile_of_head hpb0 h2
      have h4 := h3.reverse
      have h5 : (b0 :: r0).reverse = a0 :: w0 := by rw [← hr, List.reverse_reverse]
      rw [h5] at h4
      exact h4

/-- A keyword with non-whitespace first and last characters found in a
list is still found after stripping. -/
theorem containsW_pyStrip {l : List Char} {w : String} {a b : Char}
    (ha : w.data.head? = some a) (hpa : a.isWhitespace = false)
    (hb : w.data.getLast? = some b) (hpb : b.isWhitespace = false)
    (h : containsW l w = true) : containsW (pyStrip l) w = true :=
  (infixOf_iff _ _).mpr (infix_pyStrip ha hpa hb hpb ((infixOf_iff _ _).mp h))

/-! ### Claim theorems -/

/-- C1: `respond` first lowercases and trims the utterance, then
evaluates the thirteen keyword predicates in the specified order,
returning the response of the first predicate whose keywords occur as
substrings of the normalised utterance; when several predicates match,
the earliest determines the branch. -/
theorem chat_first_match_wins :
    (∀ (st : LIA) (o : Oracle) (s : String),
       chat st o s =
         branchRespond st o (normalize s) (firstMatch specPredicates (normalize s))) ∧
    (∀ (u : List Char) (k : Nat) (hk : k < specPredicates.length),
       ((specPredicates.get ⟨k, hk⟩).1 u = true) →
       (∀ j (hj : j < k), (specPredicates.get ⟨j, Nat.lt_trans hj hk⟩).1 u = false) →
       dispatch u = (specPredicates.get ⟨k, hk⟩).2) := by
  constructor
  · intro st o s
    have h : chat st o s = chatCore st o (normalize s) := rfl
    rw [h, chatCore_eq_branchRespond, dispatch_eq_firstMatch]
  · intro u k hk hm he
    rw [dispatch_eq_firstMatch]
    exact firstMatch_of_first specPredicates u k hk hm he

/-- Witness for C1: `time for a joke` matches both the time predicate
(index 1) and the joke predicate (index 2); the earlier one wins. -/
theorem chat_first_match_wins_witness :
    dispatch "time for a joke".data = Branch.time ∧
    chat initLIA o0 "hi there" =
      branchRespond initLIA o0 (normalize "hi there")
        (firstMatch specPredicates (normalize "hi there")) := by
  constructor
  · have hk12 : (1 : Nat) < specPredicates.length := by decide
    have hm : (specPredicates.get ⟨1, hk12⟩).1 "time for a joke".data = true := by
      show wantsTime "time for a joke".data = true
      decide
    have he : ∀ j (hj : j < 1),
        (specPredicates.get ⟨j, Nat.lt_trans hj hk12⟩).1 "time for a joke".data = false := by
      intro j hj
      have hj0 : j = 0 := Nat.lt_one_iff.mp hj
      subst hj0
      show wantsGreeting "time for a joke".data = false
      decide
    have hfin : (specPredicates.get ⟨1, hk12⟩).2 = Branch.time := rfl
    exact (chat_first_match_wins.2 "time for a joke".data 1 hk12 hm he).trans hfin
  · exact chat_first_match_wins.1 initLIA o0 "hi there"

/-- C3: `hashtagsForTopic` on `workout today` is exactly the fitness
list, on `banana` exactly the general list, and in general it is the
table lookup of the first matching category of the spec's ordered
keyword table applied to the lowercased input. -/
theorem hashtags_first_category :
    get_hashtags_for_topic "workout today" = looply_hashtags "fitness" ∧
    get_hashtags_for_topic "banana" = looply_hashtags "general" ∧
    ∀ (s : String),
      get_hashtags_for_topic s =
        looply_hashtags (categoryFirstMatch specCategoryTable (pyLower s.data)) := by
  refine ⟨by decide, by decide, fun s => rfl⟩

/-- C4: the responder is total: the empty utterance matches no predicate
and falls back to one of the three fixed default strings; `recall`
always returns either the stored value or the fixed default; `learn`
always succeeds with its confirmation string. -/
theorem respond_total_and_empty_falls_back :
    dispatch (normalize "") = Branch.fallback ∧
    (∀ (st : LIA) (o : Oracle), (chat st o "").2 ∈ defaults) ∧
    (∀ (st : LIA) (k : String),
       recall' st k = "🤔 I don't remember that yet. Want to teach me?" ∨
       ∃ v, st.memory k = some v ∧ recall' st k = v) ∧
    (∀ (st : LIA) (k v : String),
       (learn st k v).2 =
         "✅ Learned " ++ k ++ ". I'll remember this for our future conversations!") := by
  refine ⟨by decide, ?_, ?_, fun st k v => rfl⟩
  · intro st o
    have h : chat st o "" =
        branchRespond st o (normalize "") (dispatch (normalize "")) :=
      chatCore_eq_branchRespond st o (normalize "")
    rw [h, show dispatch (normalize "") = Branch.fallback from by decide]
    exact List.get_mem _ _ _
  · intro st k
    cases hm : st.memory k with
    | none => exact Or.inl (by simp [recall', hm])
    | some v => exact Or.inr ⟨v, rfl, by simp [recall', hm]⟩

/-- C5: `learn` then `recall` on the same key returns the stored value
(even after an earlier value is overwritten), the confirmation string
contains the key, and `recall` on an unset key returns the fixed
default. -/
theorem learn_recall_roundtrip :
    (∀ (st : LIA) (k v : String), recall' (learn st k v).1 k = v) ∧
    (∀ (st : LIA) (k v0 v : String), recall' (learn (learn st k v0).1 k v).1 k = v) ∧
    (∀ (st : LIA) (k v : String), containsSub (learn st k v).2 k = true) ∧
    (∀ (st : LIA) (k : String), st.memory k = none →
       recall' st k = "🤔 I don't remember that yet. Want to teach me?") := by
  refine ⟨?_, ?_, ?_, ?_⟩
  · intro st k v; simp [learn, recall']
  · intro st k v0 v; simp [learn, recall']
  · intro st k v
    have hinf : k.data <:+:
        ("✅ Learned " ++ k ++ ". I'll remember this for our future conversations!").data := by
      refine ⟨"✅ Learned ".data, ". I'll remember this for our future conversations!".data, ?_⟩
      simp [String.data_append]
    simpa [containsSub, learn] using (infixOf_iff k.data _).mpr hinf
  · intro st k h; simp [recall', h]

/-- Witness for C5: on a fresh responder the key `niche` is unset and
`recall` returns the fixed default string. -/
theorem learn_recall_roundtrip_witness :
    initLIA.memory "niche" = none ∧
    recall' initLIA "niche" = "🤔 I don't remember that yet. Want to teach me?" :=
  ⟨rfl, learn_recall_roundtrip.2.2.2 initLIA "niche" rfl⟩

/-- C6: `respond` never changes the memory mapping; in particular the
learn/remember branch only returns the fixed instructional string and
performs no memory write. -/
theorem respond_preserves_memory :
    (∀ (st : LIA) (o : Oracle) (s : String), ((chat st o s).1).memory = st.memory) ∧
    (∀ (st : LIA) (o : Oracle) (s : String),
       dispatch (normalize s) = Branch.learning → chat st o s = (st, learnInstr)) := by
  constructor
  · intro st o s
    have h : chat st o s =
        branchRespond st o (normalize s) (dispatch (normalize s)) :=
      chatCore_eq_branchRespond st o (normalize s)
    rw [h]
    cases dispatch (normalize s) <;> rfl
  · intro st o s hd
    have h : chat st o s =
        branchRespond st o (normalize s) (dispatch (normalize s)) :=
      chatCore_eq_branchRespond st o (normalize s)
    rw [h, hd]
    rfl

/-- Witness for C6: `remember` reaches the learn/remember branch, the
state is returned unchanged with the fixed instructional string. -/
theorem respond_preserves_memory_witness :
    dispatch (normalize "remember") = Branch.learning ∧
    chat initLIA o0 "remember" = (initLIA, learnInstr) :=
  ⟨by decide, respond_preserves_memory.2 initLIA o0 "remember" (by decide)⟩

/-- C7: any utterance whose lowercased form contains `hello`, `hi` or
`hey` gets one of the three fixed greeting strings. -/
theorem greeting_keyword_gives_greeting :
    ∀ (st : LIA) (o : Oracle) (s : String),
      (containsW (pyLower s.data) "hello" = true ∨
       containsW (pyLower s.data) "hi" = true ∨
       containsW (pyLower s.data) "hey" = true) →
      (chat st o s).2 ∈ greetings := by
  intro st o s hkw
  have hw : wantsGreeting (normalize s) = true := by
    have hstrip : containsW (normalize s) "hello" = true ∨
        containsW (normalize s) "hi" = true ∨
        containsW (normalize s) "hey" = true := by
      rcases hkw with h | h | h
      · exact Or.inl (containsW_pyStrip rfl (by decide) rfl (by decide) h)
      · exact Or.inr (Or.inl (containsW_pyStrip rfl (by decide) rfl (by decide) h))
      · exact Or.inr (Or.inr (containsW_pyStrip rfl (by decide) rfl (by decide) h))
    rcases hstrip with h | h | h <;> simp [wantsGreeting, containsAny, h]
  have hd : dispatch (normalize s) = Branch.greeting := by
    unfold dispatch
    simp [hw]
  have h : chat st o s =
      branchRespond st o (normalize s) (dispatch (normalize s)) :=
    chatCore_eq_branchRespond st o (normalize s)
  rw [h, hd]
  exact List.get_mem _ _ _

/-- Witness for C7: `Say HELLO` lowercases to a string containing
`hello` and receives a greeting. -/
theorem greeting_keyword_gives_greeting_witness :
    (chat initLIA o0 "Say HELLO").2 ∈ greetings :=
  greeting_keyword_gives_greeting initLIA o0 "Say HELLO" (Or.inl (by decide))

/-- C8: a call that reaches the upgrade predicate increments the
intelligence level by exactly one and returns the sentence embedding the
new level; from a fresh responder (level 5), N such calls end at level
5 + N. -/
theorem upgrade_increments_level :
    (∀ (st : LIA) (o : Oracle) (s : String),
       dispatch (normalize s) = Branch.upgrade →
       chat st o s = ({ st with intelligence_level := st.intelligence_level + 1 },
                      upgradeMsg (st.intelligence_level + 1))) ∧
    (∀ (inputs : List (String × Oracle)),
       (∀ p ∈ inputs, dispatch (normalize p.1) = Branch.upgrade) →
       (inputs.foldl (fun st p => (chat st p.2 p.1).1) initLIA).intelligence_level =
         5 + inputs.length) := by
  have step : ∀ (st : LIA) (o : Oracle) (s : String),
      dispatch (normalize s) = Branch.upgrade →
      chat st o s = ({ st with intelligence_level := st.intelligence_level + 1 },
                     upgradeMsg (st.intelligence_level + 1)) := by
    intro st o s hd
    have h : chat st o s =
        branchRespond st o (normalize s) (dispatch (normalize s)) :=
      chatCore_eq_branchRespond st o (normalize s)
    rw [h, hd]
    rfl
  refine ⟨step, ?_⟩
  have gen : ∀ (inputs : List (String × Oracle)) (st : LIA),
      (∀ p ∈ inputs, dispatch (normalize p.1) = Branch.upgrade) →
      (inputs.foldl (fun st p => (chat st p.2 p.1).1) st).intelligence_level =
        st.intelligence_level + inputs.length := by
    intro inputs
    induction inputs with
    | nil => intro st _; simp
    | cons p rest ih =>
      intro st hall
      have hp := hall p (List.mem_cons_self p rest)
      have hrest : ∀ q ∈ rest, dispatch (normalize q.1) = Branch.upgrade :=
        fun q hq => hall q (List.mem_cons_of_mem p hq)
      simp only [List.foldl_cons]
      rw [step st p.2 p.1 hp]
      show (List.foldl (fun st p => (chat st p.2 p.1).1)
          { st with intelligence_level := st.intelligence_level + 1 } rest).intelligence_level =
        st.intelligence_level + (p :: rest).length
      rw [ih { st with intelligence_level := st.intelligence_level + 1 } hrest]
      show st.intelligence_level + 1 + rest.length = st.intelligence_level + (p :: rest).length
      simp only [List.length_cons]
      omega
  intro inputs hall
  exact gen inputs initLIA hall

/-- Witness for C8: two upgrade utterances from a fresh responder leave
the level at 7. -/
theorem upgrade_increments_level_witness :
    (List.foldl (fun st p => (chat st p.2 p.1).1) initLIA
        [("upgrade", o0), ("UPGRADE me", o0)]).intelligence_level = 5 + 2 :=
  upgrade_increments_level.2 [("upgrade", o0), ("UPGRADE me", o0)] (by decide)

/-- C9: for an utterance that does not reach the upgrade predicate, two
states differing only in their intelligence levels produce the same
response under the same oracle (random choices and clock). -/
theorem level_noninterference :
    ∀ (st1 st2 : LIA) (o : Oracle) (s : String),
      st1.name = st2.name → st1.memory = st2.memory →
      st1.session_data = st2.session_data →
      dispatch (normalize s) ≠ Branch.upgrade →
      (chat st1 o s).2 = (chat st2 o s).2 := by
  intro st1 st2 o s _ _ _ hne
  have h1 : chat st1 o s =
      branchRespond st1 o (normalize s) (dispatch (normalize s)) :=
    chatCore_eq_branchRespond st1 o (normalize s)
  have h2 : chat st2 o s =
      branchRespond st2 o (normalize s) (dispatch (normalize s)) :=
    chatCore_eq_branchRespond st2 o (normalize s)
  rw [h1, h2]
  cases hb : dispatch (normalize s) <;> first | rfl | exact absurd hb hne

/-- Witness for C9: a greeting produces the same response at level 5 and
at level 99. -/
theorem level_noninterference_witness :
    (chat initLIA o0 "hello").2 =
      (chat { initLIA with intelligence_level := 99 } o0 "hello").2 :=
  level_noninterference initLIA { initLIA with intelligence_level := 99 } o0 "hello"
    rfl rfl rfl (by decide)

/-- C10 counterexample: `smart workout` contains `art` inside a longer
word, yet `hashtagsForTopic` returns the fitness list, not the art list,
because the fitness check comes first. -/
theorem art_substring_universal_cex :
    containsW (pyLower "smart workout".data) "art" = true ∧
    get_hashtags_for_topic "smart workout" ≠ looply_hashtags "art" := by
  decide

/-- C10 (amended): when the lowercased input contains `art` and matches
none of the four earlier categories (fitness, food, travel, tech),
`hashtagsForTopic` returns the art list; in particular `startup` gets
the art list, not the business list, although `startup` is a business
keyword. -/
theorem art_before_business :
    get_hashtags_for_topic "startup" = looply_hashtags "art" ∧
    looply_hashtags "art" ≠ looply_hashtags "business" ∧
    ∀ (s : String),
      containsW (pyLower s.data) "art" = true →
      containsAny (pyLower s.data) ["fitness", "workout", "gym", "health"] = false →
      containsAny (pyLower s.data) ["food", "recipe", "cooking", "eat"] = false →
      containsAny (pyLower s.data) ["travel", "vacation", "trip"] = false →
      containsAny (pyLower s.data) ["tech", "code", "programming", "ai"] = false →
      get_hashtags_for_topic s = looply_hashtags "art" := by
  refine ⟨by decide, by decide, ?_⟩
  intro s hart h1 h2 h3 h4
  have hart' : containsAny (pyLower s.data) ["art", "design", "creative"] = true := by
    simp [containsAny, hart]
  unfold get_hashtags_for_topic
  simp [h1, h2, h3, h4, hart']

/-- Witness for C10: the amended statement applied to `startup`. -/
theorem art_before_business_witness :
    get_hashtags_for_topic "startup" = looply_hashtags "art" :=
  art_before_business.2.2 "startup" (by decide) (by decide) (by decide) (by decide) (by decide)

/-! ### Caption formatting lemmas (for C2) -/

/-- `generate_caption` is formatting the styled template with the topic
and the first five topic hashtags. -/
theorem generate_caption_eq (tmplChoice : Fin caption_templates.length)
    (topic style : String) :
    generate_caption tmplChoice topic style =
      pyFormat (styledTemplate tmplChoice style) topic
        (String.intercalate " " ((get_hashtags_for_topic topic).take 5)) := rfl

/-- The formatter copies a brace-free literal prefix verbatim. -/
theorem fmt_skip_lit (topic tags : List Char) :
    ∀ (A rest : List Char), (∀ c ∈ A, (c == obrace) = false) → ∀ f,
      fmtAux topic tags (A.length + f) (A ++ rest) = A ++ fmtAux topic tags f rest := by
  intro A
  induction A with
  | nil => intro rest _ f; simp
  | cons c A' ih =>
    intro rest hA f
    have hc : (c == obrace) = false := hA c (List.mem_cons_self c A')
    have hlen : (c :: A').length + f = (A'.length + f) + 1 := by
      simp [List.length_cons]
      omega
    rw [hlen]
    show fmtAux topic tags ((A'.length + f) + 1) (c :: (A' ++ rest)) =
      (c :: A') ++ fmtAux topic tags f rest
    simp only [fmtAux, hc, Bool.false_and, Bool.false_eq_true, if_false, List.cons_append]
    rw [ih rest (fun d hd => hA d (List.mem_cons_of_mem c hd)) f]

/-- The formatter substitutes the topic at the topic field. -/
theorem fmt_topic_slot (topic tags rest : List Char) (f : Nat) :
    fmtAux topic tags (f + 1) (obrace :: (topicKey ++ rest)) =
      topic ++ fmtAux topic tags f rest := by
  have hpre : topicKey.isPrefixOf (topicKey ++ rest) = true :=
    List.isPrefixOf_iff_prefix.mpr (List.prefix_append topicKey rest)
  have hdrop : List.drop 6 (topicKey ++ rest) = rest := rfl
  simp only [fmtAux, hpre, beq_self_eq_true, Bool.and_self, if_true, hdrop]

/-- The formatter substitutes the hashtags at the hashtags field. -/
theorem fmt_tags_slot (topic tags rest : List Char) (f : Nat) :
    fmtAux topic tags (f + 1) (obrace :: (tagsKey ++ rest)) =
      tags ++ fmtAux topic tags f rest := by
  have hpre : tagsKey.isPrefixOf (tagsKey ++ rest) = true :=
    List.isPrefixOf_iff_prefix.mpr (List.prefix_append tagsKey rest)
  have hnot : topicKey.isPrefixOf (tagsKey ++ rest) = false := rfl
  have hdrop : List.drop 9 (tagsKey ++ rest) = rest := rfl
  simp only [fmtAux, hpre, hnot, beq_self_eq_true, Bool.and_self, Bool.and_false,
    Bool.false_eq_true, if_false, if_true, hdrop]

/-- On a template of the checked shape, formatting yields literal
prefix, topic, literal middle, hashtags. -/
theorem fmt_decomp (t topic tags : List Char) (h : checkTemplate t = true) :
    fmtAux topic tags t.length t = splitA t ++ (topic ++ (splitB t ++ tags)) := by
  have h' := h
  simp only [checkTemplate, Bool.and_eq_true, decide_eq_true_eq] at h'
  obtain ⟨hEq, -⟩ := h'
  have hA : ∀ c ∈ splitA t, (c == obrace) = false := by
    intro c hc
    simpa using List.mem_takeWhile_imp hc
  have hB : ∀ c ∈ splitB t, (c == obrace) = false := by
    intro c hc
    simpa using List.mem_takeWhile_imp hc
  set A := splitA t with hAdef
  set B := splitB t with hBdef
  rw [hEq]
  have hlen : (A ++ (obrace :: (topicKey ++ (B ++ (obrace :: tagsKey))))).length =
      A.length + ((B.length + (15 + 1)) + 1) := by
    simp only [List.length_append, List.length_cons, List.length_nil, topicKey, tagsKey]
    omega
  rw [hlen]
  rw [fmt_skip_lit topic tags A _ hA]
  rw [fmt_topic_slot]
  rw [fmt_skip_lit topic tags B _ hB]
  have h9 : (obrace :: tagsKey : List Char) = obrace :: (tagsKey ++ []) := by simp
  rw [h9, fmt_tags_slot]
  simp [fmtAux]

/-- The first five hashtags of any category, joined by spaces, contain
exactly five hash characters. -/
theorem take5_hashtags_count (topic : String) :
    (String.intercalate " " ((get_hashtags_for_topic topic).take 5)).data.count '#' = 5 := by
  simp only [get_hashtags_for_topic]
  split_ifs <;> decide

/-- A token starting with the hash sign contributes at least one hash
character, so the token count is bounded by the character count. -/
theorem head_hash_le_count (acc : List Char) :
    (if acc.reverse.head? = some '#' then 1 else 0) ≤ acc.count '#' := by
  by_cases hh : acc.reverse.head? = some '#'
  · rw [if_pos hh]
    have hmem : '#' ∈ acc := by
      cases hrev : acc.reverse with
      | nil => rw [hrev] at hh; simp at hh
      | cons x xs =>
        rw [hrev] at hh
        have hx : x = '#' := by simpa using hh
        have hmr : '#' ∈ acc.reverse := by
          rw [hrev, hx]
          exact List.mem_cons_self _ _
        simpa [List.mem_reverse] using hmr
    have := List.count_pos_iff.mpr hmem
    omega
  · have hh' : ¬ (acc.getLast? = some '#') := by rwa [List.head?_reverse] at hh
    simp [List.head?_reverse, hh, hh']

/-- Over any accumulator, the number of produced tokens that start with
the hash sign is at most the number of hash characters seen. -/
theorem tokensAux_hash_le (l : List Char) :
    ∀ (acc : List Char),
      (tokensAux acc l).countP (fun t => decide (t.head? = some '#')) ≤
        acc.count '#' + l.count '#' := by
  induction l with
  | nil =>
    intro acc
    by_cases ha : acc.isEmpty
    · simp [tokensAux, ha]
    · simp only [tokensAux, ha, Bool.false_eq_true, if_false, List.count_nil]
      have hhead := head_hash_le_count acc
      rw [List.countP_cons]
      simp only [List.countP_nil, decide_eq_true_eq]
      omega
  | cons c cs ih =>
    intro acc
    cases hws : c.isWhitespace with
    | true =>
      have hcn : ('#' : Char) ≠ c := by
        intro hcc
        rw [← hcc] at hws
        exact absurd hws (by decide)
      have hcount : (c :: cs).count '#' = cs.count '#' := List.count_cons_of_ne hcn cs
      rw [hcount]
      by_cases ha : acc.isEmpty
      · have ha0 : acc.count '#' = 0 := by
          rw [List.isEmpty_iff.mp ha]
          rfl
        simp only [tokensAux, hws, if_true, ha]
        have h1 := ih []
        simp only [List.count_nil, Nat.zero_add] at h1
        simpa [ha0] using h1
      · simp only [tokensAux, hws, if_true, ha, Bool.false_eq_true, if_false]
        rw [List.countP_cons]
        have h1 := ih []
        simp only [List.count_nil, Nat.zero_add] at h1
        have hhead := head_hash_le_count acc
        simp only [decide_eq_true_eq]
        omega
    | false =>
      simp only [tokensAux, hws, Bool.false_eq_true, if_false]
      have h1 := ih (c :: acc)
      have hc1 : (c :: acc).count '#' = acc.count '#' + if c == '#' then 1 else 0 := by
        simp [List.count_cons]
      have hc2 : (c :: cs).count '#' = cs.count '#' + if c == '#' then 1 else 0 := by
        simp [List.count_cons]
      rw [hc1] at h1
      rw [hc2]
      omega

/-- Hashtag-token count of a string is at most its hash-character count. -/
theorem tokenCount_le_hash_count (s : String) :
    tokenCountStarting '#' s ≤ s.data.count '#' := by
  have := tokensAux_hash_le s.data []
  simpa [tokenCountStarting, pyTokens] using this

/-- The two caption guarantees hold for every template of the checked
shape: the output contains the literal topic, and when the topic itself
has no hash character the output has at most five hashtag tokens. -/
theorem pyFormat_caption_props (t topic : String) (h : checkTemplate t.data = true) :
    containsSub (pyFormat t topic
      (String.intercalate " " ((get_hashtags_for_topic topic).take 5))) topic = true ∧
    (topic.data.count '#' = 0 →
      tokenCountStarting '#' (pyFormat t topic
        (String.intercalate " " ((get_hashtags_for_topic topic).take 5))) ≤ 5) := by
  set tg := String.intercalate " " ((get_hashtags_for_topic topic).take 5) with htg
  have hdata : (pyFormat t topic tg).data =
      splitA t.data ++ (topic.data ++ (splitB t.data ++ tg.data)) := by
    show fmtAux topic.data tg.data t.data.length t.data = _
    exact fmt_decomp t.data topic.data tg.data h
  constructor
  · refine (infixOf_iff _ _).mpr ⟨splitA t.data, splitB t.data ++ tg.data, ?_⟩
    rw [hdata]
    simp [List.append_assoc]
  · intro htopic
    have h' := h
    simp only [checkTemplate, Bool.and_eq_true, decide_eq_true_eq] at h'
    obtain ⟨hEq, hzero⟩ := h'
    have hEq' : t.data = splitA t.data ++
        ([obrace] ++ (topicKey ++ (splitB t.data ++ ([obrace] ++ tagsKey)))) := by
      conv_lhs => rw [hEq]
      simp
    have hc := congrArg (List.count '#') hEq'
    rw [hzero] at hc
    simp only [List.count_append] at hc
    have hk1 : List.count '#' [obrace] = 0 := by decide
    have hk2 : List.count '#' topicKey = 0 := by decide
    have hk3 : List.count '#' tagsKey = 0 := by decide
    rw [hk1, hk2, hk3] at hc
    have htg5 : tg.data.count '#' = 5 := take5_hashtags_count topic
    have hcount : (pyFormat t topic tg).data.count '#' = 5 := by
      rw [hdata]
      simp only [List.count_append]
      omega
    have hle := tokenCount_le_hash_count (pyFormat t topic tg)
    omega

/-- C2 (amended): for every caption template choice, every style in
casual/professional/creative, and every topic, the caption contains the
literal topic string; and provided the topic itself contains no hash
character, the caption contains at most 5 hashtag tokens. -/
theorem generate_caption_topic_and_hashtags :
    ∀ (tmplChoice : Fin caption_templates.length) (style topic : String),
      (style = "casual" ∨ style = "professional" ∨ style = "creative") →
      containsSub (generate_caption tmplChoice topic style) topic = true ∧
      (topic.data.count '#' = 0 →
        tokenCountStarting '#' (generate_caption tmplChoice topic style) ≤ 5) := by
  intro tmplChoice style topic hstyle
  rw [generate_caption_eq]
  apply pyFormat_caption_props
  rcases hstyle with h | h | h <;> subst h <;> fin_cases tmplChoice <;> decide

/-- C2 counterexample: a topic that itself carries six hashtag tokens
produces a caption with more than 5 hashtag tokens, refuting the bound
as stated for every topic string. -/
theorem generate_caption_hashtag_bound_cex :
    ¬ (tokenCountStarting '#'
        (generate_caption ⟨0, by decide⟩ "#a #b #c #d #e #f" "casual") ≤ 5) := by
  decide

/-- Witness for C2: the casual caption from the first template about
`travel` contains `travel` and at most five hashtag tokens. -/
theorem generate_caption_topic_and_hashtags_witness :
    containsSub (generate_caption ⟨0, by decide⟩ "travel" "casual") "travel" = true ∧
    tokenCountStarting '#' (generate_caption ⟨0, by decide⟩ "travel" "casual") ≤ 5 := by
  have h := generate_caption_topic_and_hashtags ⟨0, by decide⟩ "casual" "travel" (Or.inl rfl)
  exact ⟨h.1, h.2 (by decide)⟩

end Looply
